import Mathlib

/-!
Verification of the LP-Simulator valuation and projection engine.

The definitions below are a shallow embedding of the TypeScript source:
* the Simulation record (src/types, “unnamed/part_003”),
* the ValuationEngine (useMemo “calculations”, src/unnamed/part_002 lines 350-424),
* the ProjectionEngine (useMemo “chartData”, src/unnamed/part_002 lines 426-475),
* bound/percentage conversion (handleInputChange, src/unnamed/part_002 lines 247-278),
* the list operations updateSimulation / removeSimulation (src/App.tsx lines 43-53).

JavaScript numbers are modelled as real numbers; optional fields as Option;
the JS “x ?? 0” as Option.getD, and JS truthiness of a numeric field as
“present and nonzero”.  The vestigial “effectiveLpValue” block inside
“calculations” (lines 371-390) writes only a local variable that is never
read afterwards, so it does not appear in the embedding of the outputs.
-/

namespace LPSim

noncomputable section

/-- Which leg of the pair is shorted (TS union type 'A' | 'B'). -/
inductive ShortToken where
  | A : ShortToken
  | B : ShortToken

/-- The Simulation record of src/types (unnamed/part_003). Optional TS fields
become Option; numbers become reals; the string-valued fields are kept. -/
structure Simulation where
  id : String
  protocol : String
  tokenA : String
  tokenB : String
  initialInvestment : Option ℝ
  amountA : Option ℝ
  amountB : Option ℝ
  apr : ℝ
  duration : ℝ
  lowerPriceBound : ℝ
  upperPriceBound : ℝ
  startDate : String
  initialPriceA : ℝ
  initialPriceB : ℝ
  latestPriceA : ℝ
  latestPriceB : ℝ
  tradeVolume : Option ℝ
  volumeFee : Option ℝ
  isHedgeEnabled : Option Bool
  shortAmount : ℝ
  fundingRate : ℝ
  shortToken : ShortToken

/-- JS truthiness of an optional numeric field: present and nonzero. -/
def truthy (o : Option ℝ) : Prop := o.getD 0 ≠ 0

instance (o : Option ℝ) : Decidable (truthy o) := by unfold truthy; infer_instance

/-- Truthiness of the optional isHedgeEnabled flag (lines 407 and 458). -/
def hedgeOn (sim : Simulation) : Prop := sim.isHedgeEnabled.getD false = true

instance (sim : Simulation) : Decidable (hedgeOn sim) := by unfold hedgeOn; infer_instance

/-- Guarded ratio “b > 0 ? a / b : 0” used at lines 365, 366, 445, 446. -/
def ratioOrZero (a b : ℝ) : ℝ := if 0 < b then a / b else 0

/-- Guarded percentage “d > 0 ? x / d * 100 : 0” used at lines 401, 404, 415. -/
def pctOrZero (x d : ℝ) : ℝ := if 0 < d then x / d * 100 else 0

/-- The constant-product impermanent-loss factor, line 393 and line 452:
2 * sqrt k / (1 + k) - 1. -/
def ilFactor (k : ℝ) : ℝ := 2 * Real.sqrt k / (1 + k) - 1

/-- amountA ?? 0 (line 359). -/
def amtA (sim : Simulation) : ℝ := sim.amountA.getD 0

/-- amountB ?? 0 (line 360). -/
def amtB (sim : Simulation) : ℝ := sim.amountB.getD 0

/-- initialInvestment, line 362 (also line 435). -/
def initialInvestmentOf (sim : Simulation) : ℝ :=
  amtA sim * sim.initialPriceA + amtB sim * sim.initialPriceB

/-- holdValue, line 363. -/
def holdValueOf (sim : Simulation) : ℝ :=
  amtA sim * sim.latestPriceA + amtB sim * sim.latestPriceB

/-- latestPriceRatio, line 365. -/
def rLatest (sim : Simulation) : ℝ := ratioOrZero sim.latestPriceA sim.latestPriceB

/-- initialPriceRatio, line 366. -/
def rInitial (sim : Simulation) : ℝ := ratioOrZero sim.initialPriceA sim.initialPriceB

/-- The guard of the impermanent-loss branch, line 370. -/
def ilPrecond (sim : Simulation) : Prop :=
  0 < rInitial sim ∧ 0 < rLatest sim ∧ sim.lowerPriceBound < sim.upperPriceBound

instance (sim : Simulation) : Decidable (ilPrecond sim) := by unfold ilPrecond; infer_instance

/-- finalLpValue, lines 369-397 (the unused effectiveLpValue block omitted). -/
def finalLpValueOf (sim : Simulation) : ℝ :=
  if ilPrecond sim then
    holdValueOf sim * (1 + ilFactor (rLatest sim / rInitial sim))
  else holdValueOf sim

/-- earnedFees, line 402. -/
def earnedFeesOf (sim : Simulation) : ℝ :=
  initialInvestmentOf sim * (sim.apr / 100) * (sim.duration / 365)

/-- shortPnl, lines 406-410. -/
def shortPnlOf (sim : Simulation) : ℝ :=
  if hedgeOn sim then
    match sim.shortToken with
    | ShortToken.A =>
        if 0 < sim.initialPriceA then
          sim.shortAmount * (1 - sim.latestPriceA / sim.initialPriceA)
        else 0
    | ShortToken.B =>
        if 0 < sim.initialPriceB then
          sim.shortAmount * (1 - sim.latestPriceB / sim.initialPriceB)
        else 0
  else 0

/-- fundingPnl, lines 406, 411. -/
def fundingPnlOf (sim : Simulation) : ℝ :=
  if hedgeOn sim then -1 * sim.shortAmount * (sim.fundingRate / 100) * sim.duration else 0

/-- The snapshot record returned by the calculations useMemo, lines 418-423. -/
structure Snapshot where
  initialInvestment : ℝ
  earnedFees : ℝ
  impermanentLoss : ℝ
  impermanentLossPct : ℝ
  holdValue : ℝ
  finalLpValue : ℝ
  lpNetReturn : ℝ
  lpNetReturnPct : ℝ
  shortPnl : ℝ
  fundingPnl : ℝ
  totalNetReturn : ℝ
  totalNetReturnPct : ℝ
  finalTotalValue : ℝ
  isInRange : Prop
  rangeMin : ℝ
  rangeMax : ℝ
  rangeCurrent : ℝ

/-- The ValuationEngine: the calculations useMemo of src/unnamed/part_002,
lines 350-424, as a pure function of the Simulation record. -/
def calculations (sim : Simulation) : Snapshot :=
  { initialInvestment := initialInvestmentOf sim
    earnedFees := earnedFeesOf sim
    impermanentLoss := finalLpValueOf sim - holdValueOf sim
    impermanentLossPct := pctOrZero (finalLpValueOf sim - holdValueOf sim) (holdValueOf sim)
    holdValue := holdValueOf sim
    finalLpValue := finalLpValueOf sim
    lpNetReturn := finalLpValueOf sim + earnedFeesOf sim - initialInvestmentOf sim
    lpNetReturnPct :=
      pctOrZero (finalLpValueOf sim + earnedFeesOf sim - initialInvestmentOf sim)
        (initialInvestmentOf sim)
    shortPnl := shortPnlOf sim
    fundingPnl := fundingPnlOf sim
    totalNetReturn :=
      finalLpValueOf sim + earnedFeesOf sim - initialInvestmentOf sim
        + shortPnlOf sim + fundingPnlOf sim
    totalNetReturnPct :=
      pctOrZero
        (finalLpValueOf sim + earnedFeesOf sim - initialInvestmentOf sim
          + shortPnlOf sim + fundingPnlOf sim)
        (initialInvestmentOf sim)
    finalTotalValue :=
      initialInvestmentOf sim
        + (finalLpValueOf sim + earnedFeesOf sim - initialInvestmentOf sim
            + shortPnlOf sim + fundingPnlOf sim)
    isInRange := sim.lowerPriceBound ≤ rLatest sim ∧ rLatest sim ≤ sim.upperPriceBound
    rangeMin := sim.lowerPriceBound
    rangeMax := sim.upperPriceBound
    rangeCurrent := rLatest sim }

/-- progress, line 438. -/
def progressAt (sim : Simulation) (day : ℕ) : ℝ :=
  if 0 < sim.duration then (day : ℝ) / sim.duration else 1

/-- currentPriceA, line 439. -/
def priceAAt (sim : Simulation) (day : ℕ) : ℝ :=
  sim.initialPriceA + (sim.latestPriceA - sim.initialPriceA) * progressAt sim day

/-- currentPriceB, line 440 (fallback 1 when initialPriceB is not positive). -/
def priceBAt (sim : Simulation) (day : ℕ) : ℝ :=
  if 0 < sim.initialPriceB then
    sim.initialPriceB + (sim.latestPriceB - sim.initialPriceB) * progressAt sim day
  else 1

/-- per-day holdValue, line 442. -/
def holdValueAt (sim : Simulation) (day : ℕ) : ℝ :=
  amtA sim * priceAAt sim day + amtB sim * priceBAt sim day

/-- per-day earnedFees, line 443. -/
def earnedFeesAt (sim : Simulation) (day : ℕ) : ℝ :=
  initialInvestmentOf sim * (sim.apr / 100) * ((day : ℝ) / 365)

/-- currentPriceRatio, line 446. -/
def rCurrentAt (sim : Simulation) (day : ℕ) : ℝ :=
  ratioOrZero (priceAAt sim day) (priceBAt sim day)

/-- per-day lpValue, lines 448-455. -/
def lpValueAt (sim : Simulation) (day : ℕ) : ℝ :=
  if 0 < rInitial sim ∧ 0 < rCurrentAt sim day then
    if 0 < rCurrentAt sim day / rInitial sim then
      holdValueAt sim day * (1 + ilFactor (rCurrentAt sim day / rInitial sim))
    else holdValueAt sim day
  else holdValueAt sim day

/-- per-day shortPnl, lines 457-461. -/
def shortPnlAt (sim : Simulation) (day : ℕ) : ℝ :=
  if hedgeOn sim then
    match sim.shortToken with
    | ShortToken.A =>
        if 0 < sim.initialPriceA then
          sim.shortAmount * (1 - priceAAt sim day / sim.initialPriceA)
        else 0
    | ShortToken.B =>
        if 0 < sim.initialPriceB then
          sim.shortAmount * (1 - priceBAt sim day / sim.initialPriceB)
        else 0
  else 0

/-- per-day fundingPnl, lines 457, 462. -/
def fundingPnlAt (sim : Simulation) (day : ℕ) : ℝ :=
  if hedgeOn sim then -1 * sim.shortAmount * (sim.fundingRate / 100) * (day : ℝ) else 0

/-- per-day totalValue, line 465. -/
def totalValueAt (sim : Simulation) (day : ℕ) : ℝ :=
  lpValueAt sim day + earnedFeesAt sim day + shortPnlAt sim day + fundingPnlAt sim day

/-- A chart data point, lines 467-472. -/
structure ChartPoint where
  day : ℕ
  totalValue : ℝ
  holdValue : ℝ
  earnedFees : ℝ

/-- The point pushed for a given day, lines 467-472. -/
def chartPointAt (sim : Simulation) (day : ℕ) : ChartPoint :=
  { day := day
    totalValue := totalValueAt sim day
    holdValue := holdValueAt sim day
    earnedFees := earnedFeesAt sim day }

/-- The guard of the empty-chart early return, line 432. -/
def chartEmptyCond (sim : Simulation) : Prop :=
  sim.duration ≤ 0 ∨ ¬ truthy sim.amountA ∨ ¬ truthy sim.amountB

instance (sim : Simulation) : Decidable (chartEmptyCond sim) := by
  unfold chartEmptyCond; infer_instance

/-- The ProjectionEngine: the chartData useMemo of src/unnamed/part_002,
lines 426-475.  The JS loop runs day = 0, 1, ... while day is at most
duration, i.e. days 0 .. floor duration when duration is positive. -/
def chartData (sim : Simulation) : List ChartPoint :=
  if chartEmptyCond sim then []
  else (List.range (⌊sim.duration⌋₊ + 1)).map (chartPointAt sim)

/-! Bound/percentage conversion (handleInputChange, src/unnamed/part_002). -/

/-- The pctLower shown for a lower bound edit, lines 261-268 (also the
getValuesFromSim formula at line 142): ratio positive gives
(ratio - bound) / ratio * 100, else 0. -/
def pctLowerOfBound (r lo : ℝ) : ℝ := if 0 < r then (r - lo) / r * 100 else 0

/-- The lowerPriceBound recomputed from an edited pctLower, lines 247-252:
ratio * (1 - pct / 100). -/
def boundOfPctLower (r pct : ℝ) : ℝ := r * (1 - pct / 100)

/-- The pctUpper shown for an upper bound edit, lines 270-277 (also line 143). -/
def pctUpperOfBound (r up : ℝ) : ℝ := if 0 < r then (up - r) / r * 100 else 0

/-- The upperPriceBound recomputed from an edited pctUpper, lines 254-259. -/
def boundOfPctUpper (r pct : ℝ) : ℝ := r * (1 + pct / 100)

/-! List operations of src/App.tsx. -/

/-- A Partial Simulation patch: every field optionally present.  For the
TS-optional fields presence carries an optional value. -/
structure Patch where
  id : Option String := none
  protocol : Option String := none
  tokenA : Option String := none
  tokenB : Option String := none
  initialInvestment : Option (Option ℝ) := none
  amountA : Option (Option ℝ) := none
  amountB : Option (Option ℝ) := none
  apr : Option ℝ := none
  duration : Option ℝ := none
  lowerPriceBound : Option ℝ := none
  upperPriceBound : Option ℝ := none
  startDate : Option String := none
  initialPriceA : Option ℝ := none
  initialPriceB : Option ℝ := none
  latestPriceA : Option ℝ := none
  latestPriceB : Option ℝ := none
  tradeVolume : Option (Option ℝ) := none
  volumeFee : Option (Option ℝ) := none
  isHedgeEnabled : Option (Option Bool) := none
  shortAmount : Option ℝ := none
  fundingRate : Option ℝ := none
  shortToken : Option ShortToken := none

/-- The JS object spread of a Simulation with a Partial patch:
fields present in the patch replace the old values. -/
def mergeSim (sim : Simulation) (p : Patch) : Simulation :=
  { id := p.id.getD sim.id
    protocol := p.protocol.getD sim.protocol
    tokenA := p.tokenA.getD sim.tokenA
    tokenB := p.tokenB.getD sim.tokenB
    initialInvestment := p.initialInvestment.getD sim.initialInvestment
    amountA := p.amountA.getD sim.amountA
    amountB := p.amountB.getD sim.amountB
    apr := p.apr.getD sim.apr
    duration := p.duration.getD sim.duration
    lowerPriceBound := p.lowerPriceBound.getD sim.lowerPriceBound
    upperPriceBound := p.upperPriceBound.getD sim.upperPriceBound
    startDate := p.startDate.getD sim.startDate
    initialPriceA := p.initialPriceA.getD sim.initialPriceA
    initialPriceB := p.initialPriceB.getD sim.initialPriceB
    latestPriceA := p.latestPriceA.getD sim.latestPriceA
    latestPriceB := p.latestPriceB.getD sim.latestPriceB
    tradeVolume := p.tradeVolume.getD sim.tradeVolume
    volumeFee := p.volumeFee.getD sim.volumeFee
    isHedgeEnabled := p.isHedgeEnabled.getD sim.isHedgeEnabled
    shortAmount := p.shortAmount.getD sim.shortAmount
    fundingRate := p.fundingRate.getD sim.fundingRate
    shortToken := p.shortToken.getD sim.shortToken }

/-- updateSimulation of src/App.tsx lines 43-45: map over the list, merging
the patch into the simulation whose id matches. -/
def updateSimulation (i : String) (p : Patch) (l : List Simulation) : List Simulation :=
  l.map (fun s => if s.id = i then mergeSim s p else s)

/-- removeSimulation of src/App.tsx lines 47-53: keep the simulations whose
id differs (the localStorage cleanup is a UI side effect outside the model). -/
def removeSimulation (i : String) (l : List Simulation) : List Simulation :=
  l.filter (fun s => s.id ≠ i)

/-! Instrumented (checked) evaluators.  Each division site of the source is
replaced by a division that fails on a zero denominator, and each sqrt site
by a sqrt that fails on a negative argument: the real-arithmetic shadows of
the JS Infinity/NaN producing operations.  A none result means some evaluated
operation would have produced a non-finite JS number. -/

/-- Division that fails (JS Infinity or NaN) on a zero denominator. -/
def divOrNone (a b : ℝ) : Option ℝ := if b = 0 then none else some (a / b)

/-- Square root that fails (JS NaN) on a negative argument. -/
def sqrtOrNone (x : ℝ) : Option ℝ := if x < 0 then none else some (Real.sqrt x)

/-- Checked form of the guarded ratio. -/
def ratioChecked (a b : ℝ) : Option ℝ := if 0 < b then divOrNone a b else some 0

/-- Checked form of the guarded percentage. -/
def pctChecked (x d : ℝ) : Option ℝ :=
  if 0 < d then (divOrNone x d).map (fun q => q * 100) else some 0

/-- Checked form of the impermanent-loss factor. -/
def ilFactorChecked (k : ℝ) : Option ℝ :=
  (sqrtOrNone k).bind fun s => (divOrNone (2 * s) (1 + k)).map fun q => q - 1

/-- Checked form of earnedFees (line 402). -/
def earnedFeesChecked (sim : Simulation) : Option ℝ :=
  (divOrNone sim.apr 100).bind fun aq =>
  (divOrNone sim.duration 365).map fun dq =>
  initialInvestmentOf sim * aq * dq

/-- Checked form of shortPnl (lines 406-410). -/
def shortPnlChecked (sim : Simulation) : Option ℝ :=
  if hedgeOn sim then
    match sim.shortToken with
    | ShortToken.A =>
        if 0 < sim.initialPriceA then
          (divOrNone sim.latestPriceA sim.initialPriceA).map fun q =>
            sim.shortAmount * (1 - q)
        else some 0
    | ShortToken.B =>
        if 0 < sim.initialPriceB then
          (divOrNone sim.latestPriceB sim.initialPriceB).map fun q =>
            sim.shortAmount * (1 - q)
        else some 0
  else some 0

/-- Checked form of fundingPnl (line 411). -/
def fundingPnlChecked (sim : Simulation) : Option ℝ :=
  if hedgeOn sim then
    (divOrNone sim.fundingRate 100).map fun q => -1 * sim.shortAmount * q * sim.duration
  else some 0

/-- Checked form of the whole calculations useMemo (lines 350-424). -/
def calcChecked (sim : Simulation) : Option Snapshot :=
  (ratioChecked sim.latestPriceA sim.latestPriceB).bind fun rL =>
  (ratioChecked sim.initialPriceA sim.initialPriceB).bind fun rI =>
  (if 0 < rI ∧ 0 < rL ∧ sim.lowerPriceBound < sim.upperPriceBound then
     (divOrNone rL rI).bind fun k =>
       (ilFactorChecked k).map fun f => holdValueOf sim * (1 + f)
   else some (holdValueOf sim)).bind fun flp =>
  (pctChecked (flp - holdValueOf sim) (holdValueOf sim)).bind fun ilPct =>
  (earnedFeesChecked sim).bind fun fees =>
  (pctChecked (flp + fees - initialInvestmentOf sim) (initialInvestmentOf sim)).bind fun lpPct =>
  (shortPnlChecked sim).bind fun sp =>
  (fundingPnlChecked sim).bind fun fp =>
  (pctChecked (flp + fees - initialInvestmentOf sim + sp + fp)
      (initialInvestmentOf sim)).map fun totPct =>
  { initialInvestment := initialInvestmentOf sim
    earnedFees := fees
    impermanentLoss := flp - holdValueOf sim
    impermanentLossPct := ilPct
    holdValue := holdValueOf sim
    finalLpValue := flp
    lpNetReturn := flp + fees - initialInvestmentOf sim
    lpNetReturnPct := lpPct
    shortPnl := sp
    fundingPnl := fp
    totalNetReturn := flp + fees - initialInvestmentOf sim + sp + fp
    totalNetReturnPct := totPct
    finalTotalValue :=
      initialInvestmentOf sim + (flp + fees - initialInvestmentOf sim + sp + fp)
    isInRange := sim.lowerPriceBound ≤ rL ∧ rL ≤ sim.upperPriceBound
    rangeMin := sim.lowerPriceBound
    rangeMax := sim.upperPriceBound
    rangeCurrent := rL }

/-- Checked form of one loop iteration of chartData (lines 437-472). -/
def pointChecked (sim : Simulation) (day : ℕ) : Option ChartPoint :=
  (if 0 < sim.duration then divOrNone (day : ℝ) sim.duration else some 1).bind fun progress =>
  (some (sim.initialPriceA + (sim.latestPriceA - sim.initialPriceA) * progress)).bind fun pA =>
  (some (if 0 < sim.initialPriceB then
           sim.initialPriceB + (sim.latestPriceB - sim.initialPriceB) * progress
         else 1)).bind fun pB =>
  (some (amtA sim * pA + amtB sim * pB)).bind fun hold =>
  (divOrNone sim.apr 100).bind fun aq =>
  (divOrNone (day : ℝ) 365).bind fun dq =>
  (some (initialInvestmentOf sim * aq * dq)).bind fun fees =>
  (ratioChecked sim.initialPriceA sim.initialPriceB).bind fun rI =>
  (ratioChecked pA pB).bind fun rC =>
  (if 0 < rI ∧ 0 < rC then
     (divOrNone rC rI).bind fun k =>
       if 0 < k then (ilFactorChecked k).map fun f => hold * (1 + f)
       else some hold
   else some hold).bind fun lp =>
  (if hedgeOn sim then
     match sim.shortToken with
     | ShortToken.A =>
         if 0 < sim.initialPriceA then
           (divOrNone pA sim.initialPriceA).map fun q => sim.shortAmount * (1 - q)
         else some 0
     | ShortToken.B =>
         if 0 < sim.initialPriceB then
           (divOrNone pB sim.initialPriceB).map fun q => sim.shortAmount * (1 - q)
         else some 0
   else some 0).bind fun sp =>
  (if hedgeOn sim then
     (divOrNone sim.fundingRate 100).map fun q => -1 * sim.shortAmount * q * (day : ℝ)
   else some 0).bind fun fp =>
  some { day := day, totalValue := lp + fees + sp + fp, holdValue := hold, earnedFees := fees }

/-- Collect a list of optional values, failing if any fails. -/
def optList {α : Type} : List (Option α) → Option (List α)
  | [] => some []
  | o :: rest => o.bind fun a => (optList rest).map fun l => a :: l

/-- Checked form of the whole chartData useMemo (lines 426-475). -/
def chartChecked (sim : Simulation) : Option (List ChartPoint) :=
  if chartEmptyCond sim then some []
  else optList ((List.range (⌊sim.duration⌋₊ + 1)).map (pointChecked sim))

/-! Concrete models used for scenario claims and witnesses. -/

/-- Bound update on a Simulation (only the range fields change). -/
def setBounds (sim : Simulation) (lo up : ℝ) : Simulation :=
  { sim with lowerPriceBound := lo, upperPriceBound := up }

/-- The default seed record created by addSimulation (src/App.tsx lines 11-41):
an ETH/USDC 50/50 split sized to a 1000 initial investment, range 2400-3600,
30-day horizon. -/
def baseSim : Simulation :=
  { id := "base"
    protocol := "Uniswap V3"
    tokenA := "ETH"
    tokenB := "USDC"
    initialInvestment := none
    amountA := some ((1000 / 2) / 3000)
    amountB := some ((1000 / 2) / 1)
    apr := 25
    duration := 30
    lowerPriceBound := 2400
    upperPriceBound := 3600
    startDate := "2026-01-01"
    initialPriceA := 3000
    initialPriceB := 1
    latestPriceA := 3000
    latestPriceB := 1
    tradeVolume := some 1000000
    volumeFee := some 0.3
    isHedgeEnabled := some false
    shortAmount := 1000 / 2
    fundingRate := 0.01
    shortToken := ShortToken.A }

/-- The scenario position of spec section 8: 0.5 ETH at 3000 plus 1500 USDC. -/
def c3Sim : Simulation :=
  { baseSim with amountA := some 0.5, amountB := some 1500 }

/-- The hedged scenario of spec section 8: short 1500 of token A at funding
0.01 percent per day, with the latest A price moved to 2700. -/
def c3HedgeSim : Simulation :=
  { c3Sim with
      isHedgeEnabled := some true
      shortToken := ShortToken.A
      shortAmount := 1500
      fundingRate := 0.01
      latestPriceA := 2700 }

/-- A model refuting the unconditional projection-endpoint claim: the chart
is non-empty, duration is the integer 1, but initialPriceB is 0, so the last
chart point prices token B at the fallback 1 while the snapshot holdValue
uses latestPriceB = 2. -/
def cexSim : Simulation :=
  { baseSim with
      duration := 1
      amountA := some 1
      amountB := some 1
      initialPriceA := 1
      initialPriceB := 0
      latestPriceA := 1
      latestPriceB := 2 }

/-- A model whose projection ignores the bounds but whose snapshot does not:
ratio moves from 1 to 4 while the seed range is empty (0, 0). -/
def c9Sim : Simulation :=
  { baseSim with
      amountA := some 1
      amountB := some 1
      initialPriceA := 1
      initialPriceB := 1
      latestPriceA := 4
      latestPriceB := 1
      lowerPriceBound := 0
      upperPriceBound := 0 }

/-- baseSim with a zero-day horizon, a degenerate input of the safety claim. -/
def c5Sim : Simulation := { baseSim with duration := 0 }

/-- A patch that only sets the apr field. -/
def patchApr : Patch := { apr := some 10 }

/-- baseSim under the id "a". -/
def simA : Simulation := { baseSim with id := "a" }

/-- baseSim under the id "b". -/
def simB : Simulation := { baseSim with id := "b" }

end

/-! ## Theorems -/

noncomputable section

/-- C1: for every PositionModel whose initial and latest price ratios (each
taken as 0 when the denominator is not positive) are both positive and whose
upperPriceBound is strictly greater than lowerPriceBound, the ValuationEngine
snapshot satisfies finalLpValue = holdValue * (1 + ilFactor k) with
k = latestRatio / initialRatio; when any precondition fails,
finalLpValue = holdValue. -/
theorem C1_finalLpValue_spec (sim : Simulation) :
    (ilPrecond sim →
      (calculations sim).finalLpValue
        = (calculations sim).holdValue * (1 + ilFactor (rLatest sim / rInitial sim)))
    ∧ (¬ ilPrecond sim →
      (calculations sim).finalLpValue = (calculations sim).holdValue) := by
  refine ⟨fun h => ?_, fun h => ?_⟩
  · show finalLpValueOf sim = holdValueOf sim * (1 + ilFactor (rLatest sim / rInitial sim))
    simp only [finalLpValueOf]
    rw [if_pos h]
  · show finalLpValueOf sim = holdValueOf sim
    simp only [finalLpValueOf]
    rw [if_neg h]

/-- C1 witness: the default seed model satisfies the preconditions and
the impermanent-loss equation. -/
theorem C1_witness :
    (calculations baseSim).finalLpValue
      = (calculations baseSim).holdValue
          * (1 + ilFactor (rLatest baseSim / rInitial baseSim)) :=
  (C1_finalLpValue_spec baseSim).1
    (by norm_num [ilPrecond, rInitial, rLatest, ratioOrZero, baseSim])

/-- C6: whenever the latest price ratio equals the initial price ratio and
both are defined (positive), the impermanent-loss factor is exactly 0 and
finalLpValue equals holdValue exactly. -/
theorem C6_ratio_invariance (sim : Simulation) (h0 : 0 < rInitial sim)
    (heq : rLatest sim = rInitial sim) :
    ilFactor (rLatest sim / rInitial sim) = 0
      ∧ (calculations sim).finalLpValue = (calculations sim).holdValue := by
  have h1 : rLatest sim / rInitial sim = 1 := by
    rw [heq]; exact div_self (ne_of_gt h0)
  have hf : ilFactor 1 = 0 := by
    simp [ilFactor, Real.sqrt_one]; norm_num
  refine ⟨by rw [h1, hf], ?_⟩
  show finalLpValueOf sim = holdValueOf sim
  simp only [finalLpValueOf]
  split_ifs with hp
  · rw [h1, hf]; ring
  · rfl

/-- C6 witness: the default seed model has equal ratios and no loss. -/
theorem C6_witness :
    ilFactor (rLatest baseSim / rInitial baseSim) = 0
      ∧ (calculations baseSim).finalLpValue = (calculations baseSim).holdValue :=
  C6_ratio_invariance baseSim
    (by norm_num [rInitial, ratioOrZero, baseSim])
    (by norm_num [rInitial, rLatest, ratioOrZero, baseSim])

/-- C7: the impermanent-loss factor used by the engine is symmetric in the
direction of the price move: ilFactor k = ilFactor (1/k) for every k > 0. -/
theorem C7_ilFactor_symmetric (k : ℝ) (hk : 0 < k) : ilFactor k = ilFactor (1 / k) := by
  have hs : 0 < Real.sqrt k := Real.sqrt_pos.mpr hk
  have hss : Real.sqrt k * Real.sqrt k = k := Real.mul_self_sqrt hk.le
  have h1k : (0 : ℝ) < 1 + k := by linarith
  unfold ilFactor
  rw [one_div, Real.sqrt_inv]
  have h1k2 : (0 : ℝ) < 1 + k⁻¹ := by positivity
  field_simp
  ring_nf
  nlinarith [hss, hs, h1k]

/-- C7 witness: symmetry at the concrete ratio 4. -/
theorem C7_witness : ilFactor 4 = ilFactor (1 / 4) :=
  C7_ilFactor_symmetric 4 (by norm_num)

/-- C8: for a positive reference ratio, converting a lower bound to its
percentage deviation and back reproduces the bound (exactly, in real
arithmetic), and likewise for the upper bound. -/
theorem C8_bound_round_trip (r lo up : ℝ) (hr : 0 < r) :
    boundOfPctLower r (pctLowerOfBound r lo) = lo
      ∧ boundOfPctUpper r (pctUpperOfBound r up) = up := by
  constructor
  · simp only [boundOfPctLower, pctLowerOfBound, if_pos hr]
    field_simp
    ring
  · simp only [boundOfPctUpper, pctUpperOfBound, if_pos hr]
    field_simp
    ring

/-- C8 witness: round trip at ratio 2 with bounds 1 and 3. -/
theorem C8_witness :
    boundOfPctLower 2 (pctLowerOfBound 2 1) = 1
      ∧ boundOfPctUpper 2 (pctUpperOfBound 2 3) = 3 :=
  C8_bound_round_trip 2 1 3 (by norm_num)

/-- C4: the projection is empty exactly under the guard of line 432
(duration at most 0, or a missing/zero amount); otherwise, for an integer
duration n, it has n + 1 points whose i-th element is the day-i point
(with the day field equal to i), in increasing day order. -/
theorem C4_chart_shape (sim : Simulation) :
    (chartEmptyCond sim → chartData sim = [])
    ∧ (∀ n : ℕ, sim.duration = (n : ℝ) → 0 < sim.duration →
        truthy sim.amountA → truthy sim.amountB →
        (chartData sim).length = n + 1
          ∧ ∀ i : ℕ, i ≤ n →
              (chartData sim)[i]? = some (chartPointAt sim i)
                ∧ (chartPointAt sim i).day = i) := by
  constructor
  · intro h
    simp only [chartData]
    rw [if_pos h]
  · intro n hd hpos ha hb
    have hne : ¬ chartEmptyCond sim := by
      simp only [chartEmptyCond, not_or, not_le, not_not]
      exact ⟨hpos, ha, hb⟩
    have hfl : ⌊sim.duration⌋₊ = n := by
      rw [hd]; exact Nat.floor_natCast n
    constructor
    · simp [chartData, if_neg hne, hfl]
    · intro i hi
      refine ⟨?_, rfl⟩
      simp only [chartData]
      rw [if_neg hne, hfl]
      rw [List.getElem?_map, List.getElem?_range (by omega : i < n + 1)]
      rfl

/-- C4 witness: the default seed model (duration 30) yields 31 points and
the point at index 7 is the day-7 point. -/
theorem C4_witness :
    (chartData baseSim).length = 31
      ∧ (chartData baseSim)[7]? = some (chartPointAt baseSim 7) := by
  have h := (C4_chart_shape baseSim).2 30 (by norm_num [baseSim]) (by norm_num [baseSim])
    (by norm_num [truthy, baseSim]) (by norm_num [truthy, baseSim])
  exact ⟨h.1, (h.2 7 (by norm_num)).1⟩

/-- C9: the day-by-day projection never reads the range bounds: changing
only lowerPriceBound and upperPriceBound leaves every emitted point
unchanged, while the ValuationEngine finalLpValue does depend on them. -/
theorem C9_chart_ignores_bounds :
    (∀ (sim : Simulation) (lo up : ℝ), chartData (setBounds sim lo up) = chartData sim)
    ∧ (∃ (sim : Simulation) (lo up : ℝ),
        (calculations (setBounds sim lo up)).finalLpValue
          ≠ (calculations sim).finalLpValue) := by
  constructor
  · intro sim lo up
    cases sim
    rfl
  · refine ⟨c9Sim, 0, 2, ?_⟩
    have h4 : Real.sqrt 4 = 2 := by
      rw [show (4 : ℝ) = 2 ^ 2 by norm_num, Real.sqrt_sq (by norm_num : (0 : ℝ) ≤ 2)]
    show finalLpValueOf (setBounds c9Sim 0 2) ≠ finalLpValueOf c9Sim
    norm_num [finalLpValueOf, ilPrecond, rInitial, rLatest, ratioOrZero, holdValueOf,
      amtA, amtB, ilFactor, setBounds, c9Sim, baseSim, h4]

/-- C3: the spec scenario (0.5 token A at 3000 plus 1500 token B at 1, apr 25,
duration 30, range 2400-3600, unchanged prices) gives initialInvestment 3000,
holdValue 3000, zero impermanent-loss factor, earnedFees and lpNetReturn of
about 61.64; the hedged variant (short 1500 of A, funding 0.01, latest A price
2700) gives shortPnl 150 and fundingPnl -4.50. -/
theorem C3_scenario :
    (calculations c3Sim).initialInvestment = 3000
    ∧ (calculations c3Sim).holdValue = 3000
    ∧ ilFactor (rLatest c3Sim / rInitial c3Sim) = 0
    ∧ |(calculations c3Sim).earnedFees - 61.64| < 0.005
    ∧ |(calculations c3Sim).lpNetReturn - 61.64| < 0.005
    ∧ (calculations c3HedgeSim).shortPnl = 150
    ∧ (calculations c3HedgeSim).fundingPnl = -4.5 := by
  have hinv : initialInvestmentOf c3Sim = 3000 := by
    norm_num [initialInvestmentOf, amtA, amtB, c3Sim, baseSim]
  have hhold : holdValueOf c3Sim = 3000 := by
    norm_num [holdValueOf, amtA, amtB, c3Sim, baseSim]
  have hk : rLatest c3Sim / rInitial c3Sim = 1 := by
    norm_num [rLatest, rInitial, ratioOrZero, c3Sim, baseSim]
  have hf : ilFactor 1 = 0 := by
    simp [ilFactor, Real.sqrt_one]; norm_num
  have hflp : finalLpValueOf c3Sim = 3000 := by
    simp only [finalLpValueOf]
    rw [if_pos (by norm_num [ilPrecond, rInitial, rLatest, ratioOrZero, c3Sim, baseSim])]
    rw [hk, hf, hhold]; ring
  have hfees : earnedFeesOf c3Sim = 3000 * (25 / 100) * (30 / 365) := by
    simp only [earnedFeesOf, hinv]
    norm_num [c3Sim, baseSim]
  refine ⟨hinv, hhold, by rw [hk, hf], ?_, ?_, ?_, ?_⟩
  · show |earnedFeesOf c3Sim - 61.64| < 0.005
    rw [hfees]
    rw [abs_sub_lt_iff]
    norm_num
  · show |finalLpValueOf c3Sim + earnedFeesOf c3Sim - initialInvestmentOf c3Sim - 61.64| < 0.005
    rw [hflp, hfees, hinv, abs_sub_lt_iff]
    norm_num
  · show shortPnlOf c3HedgeSim = 150
    norm_num [shortPnlOf, hedgeOn, c3HedgeSim, c3Sim, baseSim]
  · show fundingPnlOf c3HedgeSim = -4.5
    norm_num [fundingPnlOf, hedgeOn, c3HedgeSim, c3Sim, baseSim]

/-- C2, as stated, is refuted: a model with a non-empty projection, integer
duration 1 and initialPriceB = 0 prices token B at the fallback 1 in the
last chart point (line 440) while the snapshot holdValue uses
latestPriceB = 2, so the endpoint holdValues disagree (2 versus 3). -/
theorem C2_counterexample :
    cexSim.duration = ((1 : ℕ) : ℝ)
    ∧ chartData cexSim ≠ []
    ∧ (chartData cexSim).getLast? = some (chartPointAt cexSim 1)
    ∧ (chartPointAt cexSim 1).holdValue = 2
    ∧ (calculations cexSim).holdValue = 3 := by
  have hne : ¬ chartEmptyCond cexSim := by
    simp only [chartEmptyCond, not_or, not_le, not_not]
    refine ⟨by norm_num [cexSim, baseSim], ?_, ?_⟩ <;>
      norm_num [truthy, cexSim, baseSim]
  have hchart : chartData cexSim = [chartPointAt cexSim 0, chartPointAt cexSim 1] := by
    simp only [chartData]
    rw [if_neg hne]
    norm_num [cexSim, baseSim]
    rw [show List.range 2 = [0, 1] from rfl]
    rfl
  refine ⟨by norm_num [cexSim, baseSim], by rw [hchart]; simp, by rw [hchart]; rfl, ?_, ?_⟩
  · show holdValueAt cexSim 1 = 2
    norm_num [holdValueAt, amtA, amtB, priceAAt, priceBAt, progressAt, cexSim, baseSim]
  · show holdValueOf cexSim = 3
    norm_num [holdValueOf, amtA, amtB, cexSim, baseSim]

/-- C2 amended: for a PositionModel with integer duration n, a non-empty
projection, and a positive initialPriceB, the last element of the projection
is the day-n point, and its holdValue, earnedFees, and (when the hedge is
enabled) its shortPnl and fundingPnl contributions equal the corresponding
ValuationEngine snapshot values exactly. -/
theorem C2_amended_endpoint (sim : Simulation) (n : ℕ) (hd : sim.duration = (n : ℝ))
    (hpos : 0 < sim.duration) (ha : truthy sim.amountA) (hb : truthy sim.amountB)
    (hB : 0 < sim.initialPriceB) :
    (chartData sim).getLast? = some (chartPointAt sim n)
    ∧ holdValueAt sim n = (calculations sim).holdValue
    ∧ earnedFeesAt sim n = (calculations sim).earnedFees
    ∧ (hedgeOn sim →
        shortPnlAt sim n = (calculations sim).shortPnl
          ∧ fundingPnlAt sim n = (calculations sim).fundingPnl) := by
  have hne : ¬ chartEmptyCond sim := by
    simp only [chartEmptyCond, not_or, not_le, not_not]
    exact ⟨hpos, ha, hb⟩
  have hfl : ⌊sim.duration⌋₊ = n := by
    rw [hd]; exact Nat.floor_natCast n
  have hn0 : (n : ℝ) ≠ 0 := by rw [← hd]; exact ne_of_gt hpos
  have hprog : progressAt sim n = 1 := by
    simp only [progressAt]
    rw [if_pos hpos, hd]
    exact div_self hn0
  have hpA : priceAAt sim n = sim.latestPriceA := by
    simp only [priceAAt, hprog]; ring
  have hpB : priceBAt sim n = sim.latestPriceB := by
    simp only [priceBAt, hprog]
    rw [if_pos hB]; ring
  refine ⟨?_, ?_, ?_, ?_⟩
  · simp only [chartData]
    rw [if_neg hne, hfl, List.range_succ, List.map_append]
    simp
  · show holdValueAt sim n = holdValueOf sim
    simp only [holdValueAt, holdValueOf, hpA, hpB]
  · show earnedFeesAt sim n = earnedFeesOf sim
    simp only [earnedFeesAt, earnedFeesOf, hd]
  · intro hh
    constructor
    · show shortPnlAt sim n = shortPnlOf sim
      simp only [shortPnlAt, shortPnlOf, if_pos hh, hpA, hpB]
    · show fundingPnlAt sim n = fundingPnlOf sim
      simp only [fundingPnlAt, fundingPnlOf, if_pos hh, hd]

/-- C2 witness for the amended claim: the default seed model at duration 30. -/
theorem C2_witness :
    holdValueAt baseSim 30 = (calculations baseSim).holdValue
      ∧ earnedFeesAt baseSim 30 = (calculations baseSim).earnedFees := by
  have h := C2_amended_endpoint baseSim 30 (by norm_num [baseSim]) (by norm_num [baseSim])
    (by norm_num [truthy, baseSim]) (by norm_num [truthy, baseSim])
    (by norm_num [baseSim])
  exact ⟨h.2.1, h.2.2.1⟩

/-- C10: updateSimulation preserves length and order, leaves entries with a
different id untouched and replaces a matching entry by the merge of its old
value with the patch; removeSimulation keeps exactly the entries whose id
differs, in order (a sublist of the input). -/
theorem C10_update_remove_frame (i : String) (p : Patch) (l : List Simulation) :
    (updateSimulation i p l).length = l.length
    ∧ (∀ (j : ℕ) (s : Simulation), l[j]? = some s → s.id ≠ i →
        (updateSimulation i p l)[j]? = some s)
    ∧ (∀ (j : ℕ) (s : Simulation), l[j]? = some s → s.id = i →
        (updateSimulation i p l)[j]? = some (mergeSim s p))
    ∧ List.Sublist (removeSimulation i l) l
    ∧ (∀ s : Simulation, s ∈ removeSimulation i l ↔ s ∈ l ∧ s.id ≠ i) := by
  refine ⟨?_, ?_, ?_, ?_, ?_⟩
  · simp [updateSimulation]
  · intro j s hj hs
    simp [updateSimulation, List.getElem?_map, hj, hs]
  · intro j s hj hs
    simp [updateSimulation, List.getElem?_map, hj, hs]
  · exact List.filter_sublist l
  · intro s
    simp [removeSimulation, List.mem_filter]

/-- C10 witness: with two seeds under ids "a" and "b", updating id "a"
leaves the entry at index 1 (id "b") unchanged, updates the entry at
index 0 to the merge, and removal of id "a" keeps exactly the other. -/
theorem C10_witness :
    (updateSimulation "a" patchApr [simA, simB])[1]? = some simB
      ∧ (updateSimulation "a" patchApr [simA, simB])[0]? = some (mergeSim simA patchApr)
      ∧ (simB ∈ removeSimulation "a" [simA, simB] ↔ simB ∈ [simA, simB] ∧ simB.id ≠ "a") := by
  have h := C10_update_remove_frame "a" patchApr [simA, simB]
  refine ⟨h.2.1 1 simB rfl (by rw [show simB.id = "b" from rfl]; decide),
    h.2.2.1 0 simA rfl rfl, h.2.2.2.2 simB⟩

/-! Helper lemmas for the safety claim: every checked operation of the
instrumented evaluators succeeds and agrees with the plain embedding. -/

theorem divOrNone_of_ne {a b : ℝ} (h : b ≠ 0) : divOrNone a b = some (a / b) := by
  simp [divOrNone, h]

theorem divOrNone_hundred (a : ℝ) : divOrNone a 100 = some (a / 100) :=
  divOrNone_of_ne (by norm_num)

theorem divOrNone_year (a : ℝ) : divOrNone a 365 = some (a / 365) :=
  divOrNone_of_ne (by norm_num)

theorem ratioChecked_eq (a b : ℝ) : ratioChecked a b = some (ratioOrZero a b) := by
  unfold ratioChecked ratioOrZero
  split_ifs with h
  · exact divOrNone_of_ne (ne_of_gt h)
  · rfl

theorem pctChecked_eq (x d : ℝ) : pctChecked x d = some (pctOrZero x d) := by
  unfold pctChecked pctOrZero
  split_ifs with h
  · rw [divOrNone_of_ne (ne_of_gt h)]
    rfl
  · rfl

theorem ilFactorChecked_eq {k : ℝ} (hk : 0 < k) : ilFactorChecked k = some (ilFactor k) := by
  unfold ilFactorChecked sqrtOrNone ilFactor
  rw [if_neg (not_lt.mpr hk.le), Option.some_bind,
    divOrNone_of_ne (by positivity : (1 : ℝ) + k ≠ 0)]
  rfl

theorem earnedFeesChecked_eq (sim : Simulation) :
    earnedFeesChecked sim = some (earnedFeesOf sim) := by
  unfold earnedFeesChecked earnedFeesOf
  rw [divOrNone_hundred, Option.some_bind, divOrNone_year]
  rfl

theorem shortPnlChecked_eq (sim : Simulation) :
    shortPnlChecked sim = some (shortPnlOf sim) := by
  unfold shortPnlChecked shortPnlOf
  by_cases hh : hedgeOn sim
  · rw [if_pos hh, if_pos hh]
    by_cases hA : 0 < sim.initialPriceA <;> by_cases hB : 0 < sim.initialPriceB
    · rw [if_pos hA, if_pos hA, if_pos hB, if_pos hB,
        divOrNone_of_ne (ne_of_gt hA), divOrNone_of_ne (ne_of_gt hB)]
      cases sim.shortToken <;> rfl
    · rw [if_pos hA, if_pos hA, if_neg hB, if_neg hB, divOrNone_of_ne (ne_of_gt hA)]
      cases sim.shortToken <;> rfl
    · rw [if_neg hA, if_neg hA, if_pos hB, if_pos hB, divOrNone_of_ne (ne_of_gt hB)]
      cases sim.shortToken <;> rfl
    · rw [if_neg hA, if_neg hA, if_neg hB, if_neg hB]
      cases sim.shortToken <;> rfl
  · rw [if_neg hh, if_neg hh]

theorem fundingPnlChecked_eq (sim : Simulation) :
    fundingPnlChecked sim = some (fundingPnlOf sim) := by
  unfold fundingPnlChecked fundingPnlOf
  split_ifs with hh
  · rw [divOrNone_hundred]
    rfl
  · rfl

theorem calcChecked_eq (sim : Simulation) : calcChecked sim = some (calculations sim) := by
  have hflp : (if 0 < rInitial sim ∧ 0 < rLatest sim
        ∧ sim.lowerPriceBound < sim.upperPriceBound then
      (divOrNone (rLatest sim) (rInitial sim)).bind fun k =>
        (ilFactorChecked k).map fun f => holdValueOf sim * (1 + f)
    else some (holdValueOf sim)) = some (finalLpValueOf sim) := by
    simp only [finalLpValueOf, ilPrecond]
    split_ifs with h
    · rw [divOrNone_of_ne (ne_of_gt h.1), Option.some_bind,
        ilFactorChecked_eq (div_pos h.2.1 h.1)]
      rfl
    · rfl
  simp only [calcChecked, ratioChecked_eq, Option.some_bind]
  rw [show ratioOrZero sim.latestPriceA sim.latestPriceB = rLatest sim from rfl,
    show ratioOrZero sim.initialPriceA sim.initialPriceB = rInitial sim from rfl,
    hflp, Option.some_bind, pctChecked_eq, Option.some_bind, earnedFeesChecked_eq,
    Option.some_bind, pctChecked_eq, Option.some_bind, shortPnlChecked_eq,
    Option.some_bind, fundingPnlChecked_eq, Option.some_bind, pctChecked_eq]
  rfl

theorem pointChecked_eq (sim : Simulation) (day : ℕ) :
    pointChecked sim day = some (chartPointAt sim day) := by
  have hprog : (if 0 < sim.duration then divOrNone (day : ℝ) sim.duration else some 1)
      = some (progressAt sim day) := by
    simp only [progressAt]
    split_ifs with h
    · exact divOrNone_of_ne (ne_of_gt h)
    · rfl
  simp only [pointChecked, hprog, Option.some_bind, divOrNone_hundred, divOrNone_year,
    ratioChecked_eq]
  rw [show sim.initialPriceA + (sim.latestPriceA - sim.initialPriceA) * progressAt sim day
      = priceAAt sim day from rfl]
  rw [show (if 0 < sim.initialPriceB then
        sim.initialPriceB + (sim.latestPriceB - sim.initialPriceB) * progressAt sim day
      else 1) = priceBAt sim day from rfl]
  rw [show amtA sim * priceAAt sim day + amtB sim * priceBAt sim day
      = holdValueAt sim day from rfl]
  rw [show ratioOrZero sim.initialPriceA sim.initialPriceB = rInitial sim from rfl,
    show ratioOrZero (priceAAt sim day) (priceBAt sim day) = rCurrentAt sim day from rfl]
  have hlp : (if 0 < rInitial sim ∧ 0 < rCurrentAt sim day then
      (divOrNone (rCurrentAt sim day) (rInitial sim)).bind fun k =>
        if 0 < k then (ilFactorChecked k).map fun f => holdValueAt sim day * (1 + f)
        else some (holdValueAt sim day)
    else some (holdValueAt sim day)) = some (lpValueAt sim day) := by
    simp only [lpValueAt]
    by_cases h1 : 0 < rInitial sim ∧ 0 < rCurrentAt sim day
    · rw [if_pos h1, if_pos h1, divOrNone_of_ne (ne_of_gt h1.1), Option.some_bind]
      by_cases h2 : 0 < rCurrentAt sim day / rInitial sim
      · rw [if_pos h2, if_pos h2, ilFactorChecked_eq h2]
        rfl
      · rw [if_neg h2, if_neg h2]
    · rw [if_neg h1, if_neg h1]
  rw [hlp, Option.some_bind]
  have hsp : (if hedgeOn sim then
      match sim.shortToken with
      | ShortToken.A =>
          if 0 < sim.initialPriceA then
            (divOrNone (priceAAt sim day) sim.initialPriceA).map fun q =>
              sim.shortAmount * (1 - q)
          else some 0
      | ShortToken.B =>
          if 0 < sim.initialPriceB then
            (divOrNone (priceBAt sim day) sim.initialPriceB).map fun q =>
              sim.shortAmount * (1 - q)
          else some 0
    else some 0) = some (shortPnlAt sim day) := by
    simp only [shortPnlAt]
    by_cases hh : hedgeOn sim
    · rw [if_pos hh, if_pos hh]
      by_cases hA : 0 < sim.initialPriceA <;> by_cases hB : 0 < sim.initialPriceB
      · rw [if_pos hA, if_pos hA, if_pos hB, if_pos hB,
          divOrNone_of_ne (ne_of_gt hA), divOrNone_of_ne (ne_of_gt hB)]
        cases sim.shortToken <;> rfl
      · rw [if_pos hA, if_pos hA, if_neg hB, if_neg hB, divOrNone_of_ne (ne_of_gt hA)]
        cases sim.shortToken <;> rfl
      · rw [if_neg hA, if_neg hA, if_pos hB, if_pos hB, divOrNone_of_ne (ne_of_gt hB)]
        cases sim.shortToken <;> rfl
      · rw [if_neg hA, if_neg hA, if_neg hB, if_neg hB]
        cases sim.shortToken <;> rfl
    · rw [if_neg hh, if_neg hh]
  rw [hsp, Option.some_bind]
  have hfp : (if hedgeOn sim then
      Option.map (fun q => -1 * sim.shortAmount * q * (day : ℝ))
        (some (sim.fundingRate / 100))
    else some 0) = some (fundingPnlAt sim day) := by
    simp only [fundingPnlAt, Option.map_some']
    split_ifs with hh <;> rfl
  rw [hfp, Option.some_bind]
  rfl

theorem optList_map_some {α β : Type} (g : α → Option β) (f : α → β)
    (h : ∀ a, g a = some (f a)) : ∀ l : List α, optList (l.map g) = some (l.map f)
  | [] => rfl
  | a :: rest => by
    simp only [List.map_cons, optList, h a, Option.some_bind,
      optList_map_some g f h rest, Option.map_some']

theorem chartChecked_eq (sim : Simulation) : chartChecked sim = some (chartData sim) := by
  unfold chartChecked chartData
  split_ifs with h
  · rfl
  · exact optList_map_some (pointChecked sim) (chartPointAt sim) (pointChecked_eq sim) _

/-- C5: for the degenerate inputs (initialPriceB = 0, or duration = 0, or an
inverted/zero-width range), the instrumented evaluators, which fail whenever
an evaluated division has a zero denominator or an evaluated square root a
negative argument (the real-arithmetic shadows of a JS Infinity or NaN),
succeed and return exactly the plain snapshot and chart: every computation is
total and every output quantity is a well-defined (finite) real. -/
theorem C5_degenerate_total (sim : Simulation)
    (h : sim.initialPriceB = 0 ∨ sim.duration = 0
        ∨ sim.upperPriceBound ≤ sim.lowerPriceBound) :
    calcChecked sim = some (calculations sim)
      ∧ chartChecked sim = some (chartData sim) :=
  ⟨calcChecked_eq sim, chartChecked_eq sim⟩

/-- C5 witness: the zero-duration seed model. -/
theorem C5_witness :
    calcChecked c5Sim = some (calculations c5Sim)
      ∧ chartChecked c5Sim = some (chartData c5Sim) :=
  C5_degenerate_total c5Sim (Or.inr (Or.inl rfl))

end

end LPSim
